import Mathlib

/-!
Verification of the price-normalization and cheapest-selection core of the
Flight_hotels repository (src/Hotel_flight.py and src/app.py) against its
natural-language specification.

The Python code is shallowly embedded: Python dict/list/str/number values
become the inductive `PyVal`; Python floats that can be infinite become
`WithTop ℚ`; fallible Python operations (`float(...)`, comparisons between
incompatible types, `min` over mixed keys) become `Except String`-valued
functions whose error string names the Python exception class.

Modelling conventions, stated once:
* JSON numbers are rationals (`ℚ`); the nonstandard `Infinity`/`NaN` tokens
  are outside the model.
* `float(s)` on a string is modelled for plain numeral literals (optional
  sign, digits, at most one decimal point); exponent forms, `inf`/`nan`
  words and underscore separators are outside the model and map to failure.
* `dict.get` applied to a non-dict value (an `AttributeError` in Python) is
  modelled as returning the default; the theorems below only exercise it on
  dict-shaped values.
* `Char.isDigit` models `str.isdigit` on the ASCII range; non-ASCII Unicode
  digit characters are outside the model.
-/

/-- The float domain of the price parsers and flight prices: a non-negative
rational would suffice, but numeric pass-through admits any rational, plus
`+inf` (`⊤`).  These paths never construct `-inf` or `nan`. -/
abbrev PyFloat := WithTop ℚ

/-- The full codomain of Python `float(...)`: a rational, `+inf`
(`⊤ = ↑(⊤ : PyFloat)`) or `-inf` (`⊥`).  CPython `float("inf")` and
`float("-inf")` succeed, so a value produced by `float(...)` — in particular
a hotel row's `total_price` — can be either infinity. -/
abbrev PyFloatB := WithBot PyFloat

/-- Untyped Python/JSON values flowing through the provider responses. -/
inductive PyVal where
  | pnone
  | num (q : ℚ)
  | str (s : String)
  | pbool (b : Bool)
  | list (l : List PyVal)
  | dict (l : List (String × PyVal))

/-- Python truthiness of a value (`if not x: ...`, `x or y`). -/
def truthy : PyVal → Bool
  | .pnone => false
  | .num q => q != 0
  | .str s => s != ""
  | .pbool b => b
  | .list l => !l.isEmpty
  | .dict l => !l.isEmpty

/-- Python `a or b`. -/
def pyOr (a b : PyVal) : PyVal := if truthy a then a else b

/-- Python `d.get(k)` with default `None`; on a non-dict this models the
lookup as missing (see the conventions above). -/
def PyVal.get : PyVal → String → PyVal
  | .dict l, k => (l.lookup k).getD .pnone
  | _, _ => .pnone

/-- Python `d.get(k, default)`. -/
def PyVal.getD : PyVal → String → PyVal → PyVal
  | .dict l, k, d => (l.lookup k).getD d
  | _, _, d => d

/-- Digit-string to natural number, most significant digit first. -/
def natOfDigits (cs : List Char) : ℕ :=
  cs.foldl (fun acc c => 10 * acc + (c.toNat - 48)) 0

/-- Python `float(s)` restricted to strings made of digits and dots: succeeds
iff there is at least one digit, every character is a digit or a dot, and
there is at most one dot; the value is `(intpart * 10 ^ len + fracpart) /
10 ^ len` with `len` the fractional-digit count (the exact decimal value;
binary rounding of CPython floats is outside the model). -/
def parseDigitsDot (cs : List Char) : Option ℚ :=
  if cs.all (fun c => c.isDigit || c == '.') && cs.count '.' ≤ 1
      && cs.any Char.isDigit then
    let fp := (cs.dropWhile (fun c => c ≠ '.')).drop 1
    some (mkRat (natOfDigits (cs.takeWhile (fun c => c ≠ '.')) * 10 ^ fp.length
        + natOfDigits fp) (10 ^ fp.length))
  else
    none

/-- The smallest positive decimal magnitude that overflows an IEEE-754
double (the midpoint of the largest finite double and `2 ^ 1024`): CPython
`float(s)` returns infinity for numerals at or beyond it. -/
def FLOAT_OVERFLOW : ℚ := 2 ^ 1024 - 2 ^ 970

/-- The unsigned part of `float(s)` on a string: the case-insensitive words
`inf`/`infinity` give `+inf`; otherwise the digits-and-dot numeral grammar,
with values at or beyond the IEEE overflow threshold saturating to `+inf`. -/
def pyFloatStrCore (cs : List Char) : Option PyFloat :=
  if cs.map Char.toLower = ['i', 'n', 'f']
      ∨ cs.map Char.toLower = ['i', 'n', 'f', 'i', 'n', 'i', 't', 'y'] then
    some ⊤
  else
    (parseDigitsDot cs).map
      (fun q => if FLOAT_OVERFLOW ≤ q then (⊤ : PyFloat) else (q : PyFloat))

/-- Negation of an unsigned `float(...)` result: `+inf` becomes `-inf`. -/
def pyNegF (v : PyFloat) : PyFloatB :=
  v.recTopCoe ⊥ (fun q => (((-q : ℚ) : PyFloat) : PyFloatB))

/-- Python `float(s)` on an arbitrary string: strip, optional sign, then
either an infinity word or a numeral, so the `inf`-denoting strings CPython
accepts produce the corresponding signed infinity.  Exponent forms,
underscore separators and `nan` (which has no place in the linear float
order) are outside the model and map to failure. -/
def pyFloatStr (s : String) : Option PyFloatB :=
  match ((s.toList.dropWhile Char.isWhitespace).reverse.dropWhile
      Char.isWhitespace).reverse with
  | '-' :: rest => (pyFloatStrCore rest).map pyNegF
  | '+' :: rest => (pyFloatStrCore rest).map (fun v => (v : PyFloatB))
  | cs => (pyFloatStrCore cs).map (fun v => (v : PyFloatB))

/-- Python `float(v)` on an untyped value; the error string names the Python
exception class raised.  The result can be either infinity (from the
`inf`-denoting strings); numeric JSON values are finite rationals by the
stated convention. -/
def pyFloat : PyVal → Except String PyFloatB
  | .num q => .ok ((q : PyFloat) : PyFloatB)
  | .pbool b => .ok (((if b then (1 : ℚ) else 0) : PyFloat) : PyFloatB)
  | .str s =>
      match pyFloatStr s with
      | some v => .ok v
      | none => .error "ValueError"
  | _ => .error "TypeError"

/-- Python `int(q)` on a float: truncation toward zero
(`Int.tdiv` of the reduced numerator by the denominator). -/
def pyIntTrunc (q : ℚ) : ℤ := q.num.tdiv (q.den : ℤ)

/-- The input domain of `parse_price_to_float` as the claim states it:
`None`, a number, or a string. -/
inductive PricePy where
  | pnone
  | num (q : ℚ)
  | str (s : String)
deriving DecidableEq, Repr

/-- Embeds `parse_price_to_float` from src/Hotel_flight.py lines 47-61:
`None` gives `inf`; numbers pass through `float(...)` unchanged; strings are
filtered to digits and dots and parsed, with empty-after-filter or parse
failure giving `inf`. -/
def parse_price_to_float : PricePy → PyFloat
  | .pnone => ⊤
  | .num q => (q : PyFloat)
  | .str s =>
      let digits := s.toList.filter (fun c => c.isDigit || c == '.')
      match parseDigitsDot digits with
      | some q => (q : PyFloat)
      | none => ⊤

/-- Embeds `_parse_price_value` from src/app.py lines 17-28: empty string
gives `None`; otherwise keep digits and dots and parse, `None` on failure. -/
def parsePriceValue (price_raw : String) : Option ℚ :=
  if price_raw == "" then none
  else
    parseDigitsDot (price_raw.toList.filter (fun c => c.isDigit || c == '.'))

/-- Python `list(range(a, b))` on integers. -/
def pyRange (a b : ℤ) : List ℤ :=
  (List.range (b - a).toNat).map (fun i : ℕ => a + (i : ℤ))

/-- Embeds the star-bound normalization and `starRating` payload field of
`search_hotels_for_dates`, src/Hotel_flight.py lines 186-192: swap the bounds
when `min_star > max_star`, then `list(range(min_star, max_star + 1))`. -/
def starRatingList (min_star max_star : ℤ) : List ℤ :=
  let p := if min_star > max_star then (max_star, min_star) else (min_star, max_star)
  pyRange p.1 (p.2 + 1)

-- Basic facts about the numeral parser.

theorem natOfDigits_nonneg (cs : List Char) : (0 : ℚ) ≤ (natOfDigits cs : ℚ) := by
  exact_mod_cast Nat.zero_le _

theorem parseDigitsDot_nonneg {cs : List Char} {q : ℚ}
    (h : parseDigitsDot cs = some q) : 0 ≤ q := by
  unfold parseDigitsDot at h
  split at h
  · simp only [Option.some.injEq] at h
    subst h
    rw [Rat.mkRat_eq_div]
    positivity
  · exact absurd h (by simp)

theorem mem_pyRange {a b x : ℤ} :
    x ∈ pyRange a b ↔ a ≤ x ∧ x < a + ((b - a).toNat : ℤ) := by
  simp only [pyRange, List.mem_map, List.mem_range]
  constructor
  · rintro ⟨i, hi, rfl⟩
    omega
  · rintro ⟨h1, h2⟩
    exact ⟨(x - a).toNat, by omega, by omega⟩

theorem pairwise_lt_pyRange (a b : ℤ) : (pyRange a b).Pairwise (· < ·) := by
  rw [pyRange, List.pairwise_map]
  exact (List.pairwise_lt_range _).imp (fun h => by omega)

/-- C10: when `min_star > max_star` the bounds are swapped before the
provider request is built, so the `starRating` list is the non-empty strictly
ascending integer range from the smaller to the larger bound. -/
theorem C10_star_bounds_swapped (mn mx : ℤ) (h : mn > mx) :
    starRatingList mn mx ≠ [] ∧ (starRatingList mn mx).Pairwise (· < ·) ∧
      ∀ x : ℤ, x ∈ starRatingList mn mx ↔ mx ≤ x ∧ x ≤ mn := by
  have hsw : starRatingList mn mx = pyRange mx (mn + 1) := by
    unfold starRatingList
    simp [h]
  refine ⟨?_, ?_, ?_⟩
  · rw [hsw]
    intro hnil
    have : (mx : ℤ) ∈ pyRange mx (mn + 1) := by
      rw [mem_pyRange]
      omega
    rw [hnil] at this
    exact absurd this (List.not_mem_nil _)
  · rw [hsw]
    exact pairwise_lt_pyRange _ _
  · intro x
    rw [hsw, mem_pyRange]
    omega

/-- Witness for C10 at concrete bounds 5 and 3. -/
theorem C10_star_bounds_swapped_witness :
    starRatingList 5 3 ≠ [] ∧ (starRatingList 5 3).Pairwise (· < ·) ∧
      ∀ x : ℤ, x ∈ starRatingList 5 3 ↔ 3 ≤ x ∧ x ≤ 5 :=
  C10_star_bounds_swapped 5 3 (by norm_num)

/-- C3 counterexample: the claim quantifies over every input including
arbitrary numbers, but a negative numeric input is passed through
`float(...)` unchanged, producing a finite negative value — neither a finite
non-negative float nor positive infinity. -/
theorem C3_counterexample :
    ¬ (parse_price_to_float (.num (-1)) = ⊤ ∨
        ∃ q : ℚ, 0 ≤ q ∧ parse_price_to_float (.num (-1)) = (q : PyFloat)) := by
  have h : parse_price_to_float (.num (-1)) = ((-1 : ℚ) : PyFloat) := rfl
  rintro (h1 | ⟨q, hq, h2⟩)
  · rw [h] at h1
    exact WithTop.coe_ne_top h1
  · rw [h] at h2
    have hq1 : (-1 : ℚ) = q := WithTop.coe_injective h2
    rw [← hq1] at hq
    norm_num at hq

/-- C3 amended: `None` and string inputs give a finite non-negative value or
positive infinity; a numeric input is converted by `float(...)` unchanged (so
a negative number stays negative); the four example evaluations hold. -/
theorem C3_price_parser_amended :
    parse_price_to_float .pnone = ⊤ ∧
    (∀ q : ℚ, parse_price_to_float (.num q) = (q : PyFloat)) ∧
    (∀ s : String, parse_price_to_float (.str s) = ⊤ ∨
        ∃ q : ℚ, 0 ≤ q ∧ parse_price_to_float (.str s) = (q : PyFloat)) ∧
    parse_price_to_float (.str "₩1,234") = ((1234 : ℚ) : PyFloat) ∧
    parse_price_to_float (.str "abc") = ⊤ ∧
    parse_price_to_float (.num 42) = ((42 : ℚ) : PyFloat) := by
  refine ⟨rfl, fun q => rfl, ?_, by decide, rfl, rfl⟩
  intro s
  unfold parse_price_to_float
  cases hp : parseDigitsDot (s.toList.filter fun c => c.isDigit || c == '.') with
  | none => left; simp only [hp]
  | some q =>
      right
      exact ⟨q, parseDigitsDot_nonneg hp, by simp only [hp]⟩

/-- A calendar date as `datetime.date(year, month, day)`. -/
structure PyDate where
  year : ℕ
  month : ℕ
  day : ℕ
deriving DecidableEq, Repr

/-- Zero-padded two-digit rendering used by `date.isoformat`. -/
def pad2 (n : ℕ) : String := if n < 10 then "0" ++ toString n else toString n

/-- `date.isoformat()` for the four-digit-year dates this program handles. -/
def PyDate.isoformat (d : PyDate) : String :=
  toString d.year ++ "-" ++ pad2 d.month ++ "-" ++ pad2 d.day

/-- One leg passed to the flight-search collaborator (`FlightData`). -/
structure FlightData where
  fdate : String
  from_airport : String
  to_airport : String
deriving DecidableEq, Repr

/-- Passenger counts (`Passengers`). -/
structure Passengers where
  adults : ℕ
  children : ℕ
  infants_in_seat : ℕ
  infants_on_lap : ℕ
deriving DecidableEq, Repr

/-- One raw itinerary of the collaborator result: its `price` attribute (a
string, a number, or `None` for absent) and its `name`/`airline` labels
(empty string models an absent attribute, matching the `getattr(..., "")`
defaults in the source). -/
structure RawFlight where
  price : PricePy
  name : String
  airline : String
deriving DecidableEq, Repr

/-- The argument tuple of one `get_flights` request. -/
structure GetFlightsCall where
  flight_data : List FlightData
  trip : String
  seat : String
  passengers : Passengers
  fetch_mode : String
deriving DecidableEq, Repr

/-- Embeds the dataclass `FlightOption` of src/Hotel_flight.py lines 17-23. -/
structure FlightOption where
  depart_date : PyDate
  return_date : Option PyDate
  price_value : PyFloat
  price_raw : String
  airline : String
deriving DecidableEq, Repr

/-- Python `str(...)` on a raw price attribute value. -/
def pricePyStr : PricePy → String
  | .pnone => "None"
  | .num q => toString q
  | .str s => s

/-- The first-minimum fold shared by `min(iterable, key=...)` (CPython keeps
the earliest element among ties, replacing only on strict `<`) and the
running-best loops of the month scanners. -/
def foldMinBy {α β : Type} [LinearOrder β] (key : α → β) (x : α) (xs : List α) : α :=
  xs.foldl (fun best y => if key y < key best then y else best) x

/-- The `get_flights` argument tuple built by `search_flights_for_date`,
src/Hotel_flight.py lines 80-106: one leg, or two legs when round-trip with a
return date; passengers with only adults; `fetch_mode="fallback"`. -/
def mkGetFlightsCall (depart : PyDate) (origin dest trip : String)
    (return_date : Option PyDate) (adults : ℕ) (seat : String) : GetFlightsCall :=
  let flight_data :=
    match return_date with
    | some rd =>
        if trip == "round-trip" then
          [⟨depart.isoformat, origin, dest⟩, ⟨rd.isoformat, dest, origin⟩]
        else
          [⟨depart.isoformat, origin, dest⟩]
    | none => [⟨depart.isoformat, origin, dest⟩]
  { flight_data := flight_data
    trip := if trip == "round-trip" then "round-trip" else "one-way"
    seat := seat
    passengers := ⟨adults, 0, 0, 0⟩
    fetch_mode := "fallback" }

/-- Embeds `search_flights_for_date`, src/Hotel_flight.py lines 69-124.  The
collaborator `get_flights` is an oracle from the argument tuple to either an
exception (`Except.error`, the exception text) or the list of itineraries (a
missing/`None`/empty `flights` attribute is the empty list — all three take
the same `return None` branch in the source).  The second component logs the
collaborator calls the invocation issues, in order. -/
def search_flights_for_date
    (get_flights : GetFlightsCall → Except String (List RawFlight))
    (depart : PyDate) (origin dest trip : String)
    (return_date : Option PyDate) (adults : ℕ) (seat : String) :
    Option FlightOption × List GetFlightsCall :=
  let call := mkGetFlightsCall depart origin dest trip return_date adults seat
  match get_flights call with
  | .error _ => (none, [call])
  | .ok flights =>
    match flights with
    | [] => (none, [call])
    | x :: xs =>
      let cheapest := foldMinBy (fun f => parse_price_to_float f.price) x xs
      let airline := if cheapest.name != "" then cheapest.name else cheapest.airline
      (some { depart_date := depart
              return_date := return_date
              price_value := parse_price_to_float cheapest.price
              price_raw := pricePyStr cheapest.price
              airline := if airline != "" then airline else "N/A" },
        [call])

/-- C8 counterexample: when the collaborator fails with an authentication
error, `search_flights_for_date` issues no second request in any secondary
operating mode — the call log of the invocation holds exactly the single
`fetch_mode="fallback"` request, and the result is `None`.  This contradicts
the claimed retry-once-in-a-secondary-mode behavior. -/
theorem C8_counterexample :
    (search_flights_for_date (fun _ => Except.error "AuthenticationError")
        ⟨2026, 1, 1⟩ "ICN" "CTS" "one-way" none 1 "economy").1 = none ∧
    (search_flights_for_date (fun _ => Except.error "AuthenticationError")
        ⟨2026, 1, 1⟩ "ICN" "CTS" "one-way" none 1 "economy").2.length = 1 ∧
    (search_flights_for_date (fun _ => Except.error "AuthenticationError")
        ⟨2026, 1, 1⟩ "ICN" "CTS" "one-way" none 1 "economy").2.all
      (fun c => c.fetch_mode == "fallback") = true := by
  refine ⟨rfl, rfl, rfl⟩

/-- C8 amended: every invocation issues exactly one request to the
collaborator, with operating mode `"fallback"`; any collaborator failure
(authentication errors included) yields `None` with no retry, so the caller
always receives an optional value rather than an exception. -/
theorem C8_one_request_no_retry :
    (∀ oracle depart origin dest trip ret adults seat,
      (search_flights_for_date oracle depart origin dest trip ret adults seat).2 =
        [mkGetFlightsCall depart origin dest trip ret adults seat] ∧
      (mkGetFlightsCall depart origin dest trip ret adults seat).fetch_mode =
        "fallback") ∧
    (∀ oracle depart origin dest trip ret adults seat e,
      oracle (mkGetFlightsCall depart origin dest trip ret adults seat) =
          Except.error e →
      (search_flights_for_date oracle depart origin dest trip ret adults seat).1 =
        none) := by
  constructor
  · intro oracle depart origin dest trip ret adults seat
    refine ⟨?_, rfl⟩
    unfold search_flights_for_date
    cases h : oracle (mkGetFlightsCall depart origin dest trip ret adults seat) with
    | error e => simp [h]
    | ok flights =>
        cases flights with
        | nil => simp [h]
        | cons x xs => simp [h]
  · intro oracle depart origin dest trip ret adults seat e herr
    unfold search_flights_for_date
    simp [herr]

/-- Witness for C8: the amended theorem applied to a concretely failing
collaborator. -/
theorem C8_one_request_no_retry_witness :
    (search_flights_for_date (fun _ => Except.error "HTTPError")
        ⟨2026, 1, 2⟩ "ICN" "NRT" "one-way" none 2 "economy").1 = none :=
  C8_one_request_no_retry.2 (fun _ => Except.error "HTTPError")
    ⟨2026, 1, 2⟩ "ICN" "NRT" "one-way" none 2 "economy" "HTTPError" rfl

/-- The module constant `USD_TO_KRW` of src/app.py line 14. -/
def USD_TO_KRW : ℚ := 1480

/-- The currency field built by `find_cheapest_flight_for_dates`, src/app.py
line 84: `"USD"` exactly when the raw price string contains a dollar sign,
else the empty string. -/
def inferCurrency (price_raw : String) : String :=
  if price_raw.toList.contains '$' then "USD" else ""

/-- The conversion `int(float(price_value) * rate)` of src/app.py lines 731
and 779, with the static multiplicative rate as a parameter (the module
applies it at `USD_TO_KRW`). -/
def convertToKrw (rate : ℚ) (price_value : ℚ) : ℤ :=
  pyIntTrunc (price_value * rate)

/-- The KRW-conversion branch of the month mode of `index`, src/app.py lines
775-786: convert at `USD_TO_KRW` when the raw string has a dollar sign or the
currency is `"USD"`, else truncate the value itself; an infinite price makes
`int(...)` raise `OverflowError`, caught and turned into `None`. -/
def flightPriceKrw (price_raw currency : String) (price_value : PyFloat) :
    Option ℤ :=
  price_value.recTopCoe none
    (fun q =>
      if price_raw.toList.contains '$' || currency == "USD" then
        some (convertToKrw USD_TO_KRW q)
      else
        some (pyIntTrunc q))

/-- C9: currency is inferred as USD exactly when the raw price string has a
literal dollar sign; for a USD-tagged flight the KRW amount is the truncation
of `price_value` times the static rate; the raw string `"$1,050"` parses to
`1050.0` and is inferred USD; converting 1050 at rate 1350 truncates to
1417500; the static rate the module itself applies is 1480. -/
theorem C9_usd_inference_and_conversion :
    (∀ raw : String, inferCurrency raw = "USD" ↔ '$' ∈ raw.toList) ∧
    (∀ raw : String, ∀ q : ℚ,
      flightPriceKrw raw "USD" (q : PyFloat) = some (convertToKrw USD_TO_KRW q)) ∧
    parsePriceValue "$1,050" = some 1050 ∧
    inferCurrency "$1,050" = "USD" ∧
    convertToKrw 1350 1050 = 1417500 ∧
    USD_TO_KRW = 1480 := by
  have hconv : convertToKrw 1350 1050 = 1417500 := by
    unfold convertToKrw
    have h : ((1050 : ℚ) * 1350) = 1417500 := by norm_num
    rw [h]
    unfold pyIntTrunc
    norm_num
  refine ⟨?_, ?_, by decide, by decide, hconv, rfl⟩
  · intro raw
    unfold inferCurrency
    by_cases h : '$' ∈ raw.toList
    · simp [h]
    · simp [h]
  · intro raw q
    unfold flightPriceKrw
    rw [WithTop.recTopCoe_coe]
    simp

theorem foldMinBy_cons {α β : Type} [LinearOrder β] (key : α → β) (x y : α) (ys : List α) :
    foldMinBy key x (y :: ys) =
      foldMinBy key (if key y < key x then y else x) ys := rfl

/-- The first-minimum fold splits its input as a prefix of strictly more
expensive elements, the returned minimum, and a suffix; the returned element
is a global minimum.  This is exactly CPython `min` keeping the first of the
ties. -/
theorem foldMinBy_decomp {α β : Type} [LinearOrder β] (key : α → β) :
    ∀ (xs : List α) (x : α),
      ∃ l1 l2, x :: xs = l1 ++ foldMinBy key x xs :: l2 ∧
        (∀ y ∈ l1, key (foldMinBy key x xs) < key y) ∧
        (∀ y ∈ x :: xs, key (foldMinBy key x xs) ≤ key y) := by
  intro xs
  induction xs with
  | nil =>
      intro x
      refine ⟨[], [], rfl, by simp, ?_⟩
      intro y hy
      rcases List.mem_singleton.1 hy with rfl
      exact le_refl _
  | cons y ys ih =>
      intro x
      rw [foldMinBy_cons]
      by_cases hlt : key y < key x
      · rw [if_pos hlt]
        obtain ⟨l1, l2, hdec, hstrict, hle⟩ := ih y
        refine ⟨x :: l1, l2, ?_, ?_, ?_⟩
        · rw [List.cons_append, ← hdec]
        · intro z hz
          rcases List.mem_cons.1 hz with rfl | hz1
          · exact lt_of_le_of_lt (hle y (List.mem_cons_self _ _)) hlt
          · exact hstrict z hz1
        · intro z hz
          rcases List.mem_cons.1 hz with rfl | hz1
          · exact le_of_lt (lt_of_le_of_lt (hle y (List.mem_cons_self _ _)) hlt)
          · exact hle z hz1
      · rw [if_neg hlt]
        obtain ⟨l1, l2, hdec, hstrict, hle⟩ := ih x
        cases l1 with
        | nil =>
            simp only [List.nil_append] at hdec
            have hx : x = foldMinBy key x ys := by
              exact (List.cons.injEq _ _ _ _ ▸ hdec).1
            refine ⟨[], y :: ys, ?_, by simp, ?_⟩
            · rw [List.nil_append, ← hx]
            · intro z hz
              rcases List.mem_cons.1 hz with rfl | hz1
              · exact hle z (List.mem_cons_self _ _)
              · rcases List.mem_cons.1 hz1 with rfl | hz2
                · calc key (foldMinBy key x ys) ≤ key x :=
                        hle x (List.mem_cons_self _ _)
                    _ ≤ key z := not_lt.1 hlt
                · exact hle z (List.mem_cons_of_mem _ hz2)
        | cons a t =>
            rw [List.cons_append] at hdec
            have h1 : x = a := (List.cons.injEq _ _ _ _ ▸ hdec).1
            have h2 : ys = t ++ foldMinBy key x ys :: l2 :=
              (List.cons.injEq _ _ _ _ ▸ hdec).2
            have hma : key (foldMinBy key x ys) < key x := by
              have h := hstrict a (List.mem_cons_self a t)
              rwa [← h1] at h
            refine ⟨x :: y :: t, l2, ?_, ?_, ?_⟩
            · rw [List.cons_append, List.cons_append, ← h2]
            · intro z hz
              rcases List.mem_cons.1 hz with rfl | hz1
              · exact hma
              · rcases List.mem_cons.1 hz1 with rfl | hz2
                · exact lt_of_lt_of_le hma (not_lt.1 hlt)
                · exact hstrict z (List.mem_cons_of_mem _ hz2)
            · intro z hz
              rcases List.mem_cons.1 hz with rfl | hz1
              · exact hle z (List.mem_cons_self _ _)
              · rcases List.mem_cons.1 hz1 with rfl | hz2
                · exact le_of_lt (lt_of_lt_of_le hma (not_lt.1 hlt))
                · exact hle z (List.mem_cons_of_mem _ hz2)

theorem foldMinBy_mem {α β : Type} [LinearOrder β] (key : α → β) (xs : List α) (x : α) :
    foldMinBy key x xs ∈ x :: xs := by
  obtain ⟨l1, l2, hdec, _, _⟩ := foldMinBy_decomp key xs x
  rw [hdec]
  exact List.mem_append_right _ (List.mem_cons_self _ _)

theorem foldMinBy_le {α β : Type} [LinearOrder β] (key : α → β) (xs : List α) (x : α) :
    ∀ y ∈ x :: xs, key (foldMinBy key x xs) ≤ key y :=
  (foldMinBy_decomp key xs x).choose_spec.choose_spec.2.2

/-- Embeds the dataclass `HotelOption` of src/Hotel_flight.py lines 26-35.
Fields the source stores without conversion keep the untyped value;
`total_price` went through `float(...)` and `rank` is an assigned int. -/
structure HotelOption where
  rank : ℕ
  hotel_id : PyVal
  name : PyVal
  star_rating : PyVal
  address : PyVal
  total_price : PyFloatB
  currency : PyVal
  refundable_tag : PyVal

/-- The sort key relation of `rows.sort(key=lambda x: x.total_price)`. -/
def priceLe (a b : HotelOption) : Prop := a.total_price ≤ b.total_price

instance : DecidableRel priceLe := fun a b =>
  inferInstanceAs (Decidable (a.total_price ≤ b.total_price))

instance : IsTotal HotelOption priceLe :=
  ⟨fun a b => le_total a.total_price b.total_price⟩

instance : IsTrans HotelOption priceLe :=
  ⟨fun _ _ _ hab hbc => le_trans hab hbc⟩

/-- The rank-assignment loop `for i, r in enumerate(rows, start=1): r.rank = i`
of src/Hotel_flight.py lines 291-292. -/
def assignRanksFrom : ℕ → List HotelOption → List HotelOption
  | _, [] => []
  | i, r :: rs => { r with rank := i } :: assignRanksFrom (i + 1) rs

/-- Embeds the sort-and-rank step of `search_hotels_for_dates`,
src/Hotel_flight.py lines 290-294: stable ascending sort by `total_price`
(Python `list.sort` is stable; insertion sort inserting each element before
its later ties realizes the same permutation), then 1-based ranks. -/
def rankHotels (rows : List HotelOption) : List HotelOption :=
  assignRanksFrom 1 (List.insertionSort priceLe rows)

/-- Forget the mutable `rank` field, for comparing offers across the rank
overwrite. -/
def clearRank (h : HotelOption) : HotelOption := { h with rank := 0 }

theorem length_assignRanksFrom : ∀ (i : ℕ) (l : List HotelOption),
    (assignRanksFrom i l).length = l.length
  | _, [] => rfl
  | i, _ :: rs => by
      simp only [assignRanksFrom, List.length_cons, length_assignRanksFrom (i + 1) rs]

theorem map_rank_assignRanksFrom : ∀ (i : ℕ) (l : List HotelOption),
    (assignRanksFrom i l).map (fun h => h.rank) = List.range' i l.length
  | _, [] => rfl
  | i, r :: rs => by
      simp only [assignRanksFrom, List.map_cons, List.length_cons]
      rw [map_rank_assignRanksFrom (i + 1) rs]
      rfl

theorem map_price_assignRanksFrom : ∀ (i : ℕ) (l : List HotelOption),
    (assignRanksFrom i l).map (fun h => h.total_price) =
      l.map (fun h => h.total_price)
  | _, [] => rfl
  | i, r :: rs => by
      simp only [assignRanksFrom, List.map_cons]
      rw [map_price_assignRanksFrom (i + 1) rs]

theorem filter_clear_assignRanksFrom (p : PyFloatB) : ∀ (i : ℕ) (l : List HotelOption),
    ((assignRanksFrom i l).filter (fun h => decide (h.total_price = p))).map clearRank =
      (l.filter (fun h => decide (h.total_price = p))).map clearRank
  | _, [] => rfl
  | i, r :: rs => by
      rw [assignRanksFrom, List.filter_cons, List.filter_cons]
      by_cases hp : r.total_price = p
      · rw [if_pos (decide_eq_true hp), if_pos (decide_eq_true hp),
          List.map_cons, List.map_cons, filter_clear_assignRanksFrom p (i + 1) rs]
        rfl
      · rw [if_neg (by simpa using hp), if_neg (by simpa using hp)]
        exact filter_clear_assignRanksFrom p (i + 1) rs

/-- Inserting an element into a list with `orderedInsert` by price places it
before exactly the strictly more expensive prefix elements, so filtering by
any fixed price commutes with the insertion up to the usual cons. -/
theorem filter_price_orderedInsert (p : PyFloatB) (a : HotelOption)
    (l : List HotelOption) :
    (List.orderedInsert priceLe a l).filter (fun h => decide (h.total_price = p)) =
      (a :: l).filter (fun h => decide (h.total_price = p)) := by
  rw [List.orderedInsert_eq_take_drop, List.filter_append, List.filter_cons]
  by_cases hp : a.total_price = p
  · have htk : (l.takeWhile fun b => ¬priceLe a b).filter
        (fun h => decide (h.total_price = p)) = [] := by
      rw [List.filter_eq_nil_iff]
      intro b hb
      have hkeep := List.mem_takeWhile_imp hb
      simp only [decide_eq_true_eq] at hkeep ⊢
      intro hbp
      exact hkeep (le_of_eq (hp.trans hbp.symm))
    rw [htk, if_pos (decide_eq_true hp), List.filter_cons, if_pos (decide_eq_true hp)]
    rw [List.nil_append]
    congr 1
    conv_rhs => rw [← List.takeWhile_append_dropWhile
      (p := fun b => decide ¬priceLe a b) (l := l)]
    rw [List.filter_append, htk, List.nil_append]
  · rw [if_neg (by simpa using hp), List.filter_cons, if_neg (by simpa using hp)]
    rw [← List.filter_append, List.takeWhile_append_dropWhile]

/-- Filtering by a fixed price commutes with the stable insertion sort: the
offers of any given price appear in the sorted list in their original order. -/
theorem filter_price_insertionSort (p : PyFloatB) : ∀ l : List HotelOption,
    (List.insertionSort priceLe l).filter (fun h => decide (h.total_price = p)) =
      l.filter (fun h => decide (h.total_price = p))
  | [] => rfl
  | x :: xs => by
      have : List.insertionSort priceLe (x :: xs) =
          List.orderedInsert priceLe x (List.insertionSort priceLe xs) := rfl
      rw [this, filter_price_orderedInsert, List.filter_cons, List.filter_cons]
      by_cases hp : x.total_price = p
      · rw [if_pos (decide_eq_true hp), if_pos (decide_eq_true hp),
          filter_price_insertionSort p xs]
      · rw [if_neg (by simpa using hp), if_neg (by simpa using hp)]
        exact filter_price_insertionSort p xs

/-- C1: the sort-and-rank step preserves length, sorts ascending by
`total_price`, assigns ranks exactly `1..N` in list order, and is stable —
for every price, the offers of that price appear in the output in their
original input order (compared with the mutable `rank` field cleared, since
ranking overwrites it). -/
theorem C1_ranker_sorts_and_ranks (rows : List HotelOption) :
    (rankHotels rows).length = rows.length ∧
    (rankHotels rows).Pairwise (fun a b => a.total_price ≤ b.total_price) ∧
    (rankHotels rows).map (fun h => h.rank) = List.range' 1 rows.length ∧
    ∀ p : PyFloatB,
      ((rankHotels rows).filter (fun h => decide (h.total_price = p))).map clearRank =
        (rows.filter (fun h => decide (h.total_price = p))).map clearRank := by
  refine ⟨?_, ?_, ?_, ?_⟩
  · rw [rankHotels, length_assignRanksFrom, List.length_insertionSort]
  · have hs : (List.insertionSort priceLe rows).Pairwise priceLe :=
      List.sorted_insertionSort priceLe rows
    have hmap : ((rankHotels rows).map (fun h => h.total_price)).Pairwise (· ≤ ·) := by
      rw [rankHotels, map_price_assignRanksFrom]
      exact List.pairwise_map.2 hs
    rw [List.pairwise_map] at hmap
    exact hmap
  · rw [rankHotels, map_rank_assignRanksFrom, List.length_insertionSort]
  · intro p
    rw [rankHotels, filter_clear_assignRanksFrom, filter_price_insertionSort]

/-- The value of the sort key `get_offer_amount` of src/Hotel_flight.py lines
262-264: the raw `amount` value when the key is present, or the Python float
`inf` default when `offerRetailRate` or `amount` is missing. -/
inductive AKey where
  | val (v : PyVal)
  | inf

/-- Embeds `get_offer_amount` (src/Hotel_flight.py lines 262-264):
`(rt.get("offerRetailRate") or {}).get("amount", float("inf"))`. -/
def get_offer_amount (rt : PyVal) : AKey :=
  match pyOr (rt.get "offerRetailRate") (.dict []) with
  | .dict l =>
      match l.lookup "amount" with
      | some v => .val v
      | none => .inf
  | _ => .inf

/-- Python `<` between two sort-key values: numbers compare numerically
(`inf` is the float infinity), strings compare lexicographically, and a
mixed-type comparison raises `TypeError`.  Comparisons between booleans and
the container types are not reached by the verified claims and are modelled
as `TypeError`. -/
def akeyLt : AKey → AKey → Except String Bool
  | .val (.num a), .val (.num b) => .ok (decide (a < b))
  | .val (.num _), .inf => .ok true
  | .inf, .val (.num _) => .ok false
  | .inf, .inf => .ok false
  | .val (.str a), .val (.str b) => .ok (decide (a < b))
  | _, _ => .error "TypeError"

/-- The scanning loop of CPython `min(iterable, key=...)`: keep the running
best, replace it only when the candidate key compares strictly below it. -/
def pyMinGo {α : Type} (key : α → AKey) : α → List α → Except String α
  | best, [] => .ok best
  | best, y :: ys =>
      match akeyLt (key y) (key best) with
      | .error e => .error e
      | .ok b => pyMinGo key (if b then y else best) ys

/-- Python `min(iterable, key=...)`: `ValueError` on an empty iterable, else
the first-minimum scan. -/
def pyMin {α : Type} (key : α → AKey) : List α → Except String α
  | [] => .error "ValueError"
  | x :: xs => pyMinGo key x xs

/-- Python `value[0]` indexing as used for `(best_room.get("rates") or
[{}])[0]`: head of a non-empty list, first character of a non-empty string,
`IndexError` when empty, `TypeError` on non-sequences. -/
def pyIndex0 : PyVal → Except String PyVal
  | .list (x :: _) => .ok x
  | .list [] => .error "IndexError"
  | .str s =>
      match s.toList with
      | c :: _ => .ok (.str (String.mk [c]))
      | [] => .error "IndexError"
  | _ => .error "TypeError"

/-- Embeds the address extraction of `search_hotels_for_dates`,
src/Hotel_flight.py lines 251-256: a dict address gives
`addr.get("line1") or addr.get("city") or ""`, a string address is used
as-is, anything else gives the empty string. -/
def extractAddress (hotel_info : PyVal) : PyVal :=
  match hotel_info.get "address" with
  | .dict l =>
      pyOr ((PyVal.dict l).get "line1") (pyOr ((PyVal.dict l).get "city") (.str ""))
  | .str s => .str s
  | _ => .str ""

/-- Embeds the per-record normalization of `search_hotels_for_dates`,
src/Hotel_flight.py lines 233-288, for one element of the provider `data`
array: resolve identity and descriptive fields with their fallback chains,
skip the record (`ok none`) when `roomTypes` is missing or empty, pick the
minimum-amount room type with `min(room_types, key=get_offer_amount)`, skip
when the selected amount is `None`, and otherwise build the `HotelOption`
with `float(total_price)`.  Failures of `min` or `float` propagate as the
exceptions the source would raise (it catches none of them).  The metadata
side table keys are the hotel-id strings. -/
def normalizeHotel (currency : String) (meta : List (String × PyVal))
    (hotel_obj : PyVal) : Except String (Option HotelOption) :=
  let hotel_id := pyOr (hotel_obj.get "hotelId") (.str "")
  let hotel_info0 := pyOr (hotel_obj.get "hotel") (.dict [])
  let hotel_info :=
    if truthy hotel_info0 = false then
      match hotel_id with
      | .str s =>
          match meta.lookup s with
          | some m => pyOr m (.dict [])
          | none => hotel_info0
      | _ => hotel_info0
    else hotel_info0
  let name := pyOr (hotel_info.get "name") (pyOr (hotel_info.get "hotelName")
    (pyOr (hotel_obj.get "hotelName") (.str "")))
  let star :=
    match hotel_info.get "starRating" with
    | .pnone => hotel_info.get "rating"
    | v => v
  let address := extractAddress hotel_info
  let room_types := pyOr (hotel_obj.get "roomTypes") (.list [])
  if truthy room_types = false then .ok none
  else
    match room_types with
    | .list rts =>
        match pyMin get_offer_amount rts with
        | .error e => .error e
        | .ok best_room =>
            let offer := pyOr (best_room.get "offerRetailRate") (.dict [])
            let total_price := offer.get "amount"
            let curr := offer.getD "currency" (.str currency)
            match pyIndex0 (pyOr (best_room.get "rates") (.list [.dict []])) with
            | .error e => .error e
            | .ok first_rate =>
                let refundable_tag := (pyOr (first_rate.get "cancellationPolicies")
                  (.dict [])).getD "refundableTag" (.str "")
                match total_price with
                | .pnone => .ok none
                | tp =>
                    match pyFloat tp with
                    | .error e => .error e
                    | .ok v =>
                        .ok (some ⟨0, hotel_id, name, star, address,
                          v, curr, refundable_tag⟩)
    | _ => .error "TypeError"

/-- The normalization loop over the provider `data` array (src/Hotel_flight.py
lines 231-288): skipped records are dropped, the first exception aborts. -/
def normalizeHotels (currency : String) (meta : List (String × PyVal)) :
    List PyVal → Except String (List HotelOption)
  | [] => .ok []
  | x :: xs =>
      match normalizeHotel currency meta x with
      | .error e => .error e
      | .ok none => normalizeHotels currency meta xs
      | .ok (some r) =>
          match normalizeHotels currency meta xs with
          | .error e => .error e
          | .ok rest => .ok (r :: rest)

/-- The whole post-response hotel pipeline of `search_hotels_for_dates`
(src/Hotel_flight.py lines 225-294): normalize each record of the `data`
array, then sort by price and assign ranks. -/
def search_hotels_rows (currency : String) (data_list : List PyVal)
    (meta : List (String × PyVal)) : Except String (List HotelOption) :=
  match normalizeHotels currency meta data_list with
  | .error e => .error e
  | .ok rows => .ok (rankHotels rows)

/-- C7 counterexample: for an address mapping holding both a street line and
a city the code keeps only the first non-empty of `line1` then `city` — it
never joins components with spaces — and there is no `location` fallback:
a record whose only locational field is `location` gets the empty address. -/
theorem C7_counterexample :
    extractAddress (.dict [("address", .dict [("line1", .str "1 Main St"),
        ("city", .str "Springfield")])]) = .str "1 Main St" ∧
    "1 Main St" ≠ "1 Main St Springfield" ∧
    extractAddress (.dict [("location", .dict [("city", .str "Springfield")])]) =
      .str "" := by
  refine ⟨rfl, by decide, rfl⟩

/-- C7 amended: if the address field is a mapping, the address is the first
truthy value among `line1` then `city`, else the empty string; a plain-string
address is used as-is; any other shape (including a record offering only a
`location` mapping) gives the empty string — there is no component join and
no `location` fallback. -/
theorem C7_address_extraction_amended :
    (∀ (info : PyVal) (l : List (String × PyVal)),
      info.get "address" = PyVal.dict l →
      (truthy ((PyVal.dict l).get "line1") = true →
          extractAddress info = (PyVal.dict l).get "line1") ∧
      (truthy ((PyVal.dict l).get "line1") = false →
          truthy ((PyVal.dict l).get "city") = true →
          extractAddress info = (PyVal.dict l).get "city") ∧
      (truthy ((PyVal.dict l).get "line1") = false →
          truthy ((PyVal.dict l).get "city") = false →
          extractAddress info = .str "")) ∧
    (∀ (info : PyVal) (s : String),
      info.get "address" = PyVal.str s → extractAddress info = .str s) ∧
    (∀ info : PyVal,
      (∀ l, info.get "address" ≠ PyVal.dict l) →
      (∀ s, info.get "address" ≠ PyVal.str s) →
      extractAddress info = .str "") := by
  refine ⟨?_, ?_, ?_⟩
  · intro info l h
    have hform : extractAddress info =
        pyOr ((PyVal.dict l).get "line1")
          (pyOr ((PyVal.dict l).get "city") (.str "")) := by
      unfold extractAddress
      rw [h]
    refine ⟨?_, ?_, ?_⟩
    · intro h1
      rw [hform, pyOr, if_pos h1]
    · intro h1 h2
      rw [hform, pyOr, if_neg (by simp [h1]), pyOr, if_pos h2]
    · intro h1 h2
      rw [hform, pyOr, if_neg (by simp [h1]), pyOr, if_neg (by simp [h2])]
  · intro info s h
    unfold extractAddress
    rw [h]
  · intro info hd hs
    unfold extractAddress
    cases hcase : info.get "address" with
    | pnone => rfl
    | num q => rfl
    | str s => exact absurd hcase (hs s)
    | pbool b => rfl
    | list l => rfl
    | dict l => exact absurd hcase (hd l)

/-- Witness for C7: a mapping address with no street line but a truthy city
yields the city. -/
theorem C7_address_extraction_amended_witness :
    extractAddress (.dict [("address", .dict [("city", .str "Busan")])]) =
      .str "Busan" :=
  (C7_address_extraction_amended.1
    (.dict [("address", .dict [("city", .str "Busan")])])
    [("city", .str "Busan")] rfl).2.1 rfl rfl

/-- C2 counterexample: a record whose only room type has the non-numeric
amount `"abc"` makes `float(total_price)` raise `ValueError` — the record
causes a failure instead of being absent from the output. -/
theorem C2_counterexample :
    normalizeHotel "KRW" []
        (.dict [("roomTypes", .list [.dict [("offerRetailRate",
          .dict [("amount", .str "abc")])]])]) = .error "ValueError" := rfl

/-- A room-type record with a numeric amount, or with `offerRetailRate`
entirely missing (so the amount defaults to `inf` in the sort key). -/
def mkRoom : Option ℚ → PyVal
  | none => .dict []
  | some q => .dict [("offerRetailRate", .dict [("amount", .num q)])]

/-- The sort-key value of a room as a float: the amount, or `inf` when
missing. -/
def wval : Option ℚ → PyFloat
  | none => ⊤
  | some q => (q : PyFloat)

theorem akeyLt_mkRoom (a b : Option ℚ) :
    akeyLt (get_offer_amount (mkRoom a)) (get_offer_amount (mkRoom b)) =
      .ok (decide (wval a < wval b)) := by
  cases a with
  | none =>
      cases b with
      | none => simp [mkRoom, get_offer_amount, akeyLt, wval, pyOr, truthy, PyVal.get]
      | some q => simp [mkRoom, get_offer_amount, akeyLt, wval, pyOr, truthy, PyVal.get]
  | some p =>
      cases b with
      | none => simp [mkRoom, get_offer_amount, akeyLt, wval, pyOr, truthy, PyVal.get,
          WithTop.coe_lt_top]
      | some q => simp [mkRoom, get_offer_amount, akeyLt, wval, pyOr, truthy, PyVal.get,
          WithTop.coe_lt_coe]

/-- On rooms built by `mkRoom` the Python `min` scan never fails and selects
according to the first-minimum fold on the float keys. -/
theorem pyMinGo_mkRoom : ∀ (rest : List (Option ℚ)) (best : Option ℚ),
    pyMinGo get_offer_amount (mkRoom best) (rest.map mkRoom) =
      .ok (mkRoom (foldMinBy wval best rest))
  | [], _ => rfl
  | y :: ys, best => by
      rw [List.map_cons, pyMinGo, akeyLt_mkRoom, foldMinBy_cons]
      simp only [decide_eq_true_eq]
      rw [← apply_ite mkRoom]
      exact pyMinGo_mkRoom ys _

/-- C2 amended: a record with missing or empty (falsy) `roomTypes` is skipped
with no failure; among room types whose amounts are numeric or missing, the
missing amounts count as infinity and the minimum numeric amount is selected
(the hotel is priced at the least numeric amount present); in particular
amounts 500 and 300 select 300.  (Unlike the original claim, a non-numeric
string amount is not treated as infinity: it is compared raw — a `TypeError`
against numeric keys — and if selected, `float(...)` raises `ValueError`, so
such a record fails instead of being skipped; see the counterexample.) -/
theorem C2_normalizer_amended :
    (∀ (currency : String) (meta : List (String × PyVal)) (obj : PyVal),
      truthy (pyOr (obj.get "roomTypes") (.list [])) = false →
      normalizeHotel currency meta obj = .ok none) ∧
    (∀ (currency : String) (a0 : Option ℚ) (rest : List (Option ℚ)) (q0 : ℚ),
      some q0 ∈ a0 :: rest →
      ∃ m : ℚ,
        normalizeHotel currency []
            (.dict [("roomTypes", .list ((a0 :: rest).map mkRoom))]) =
          .ok (some ⟨0, .str "", .str "", .pnone, .str "",
            (m : PyFloat), .str currency, .str ""⟩) ∧
        some m ∈ a0 :: rest ∧
        (∀ q : ℚ, some q ∈ a0 :: rest → m ≤ q)) ∧
    (normalizeHotel "KRW" []
        (.dict [("roomTypes", .list [mkRoom (some 500), mkRoom (some 300)])]) =
      .ok (some ⟨0, .str "", .str "", .pnone, .str "",
        ((300 : ℚ) : PyFloat), .str "KRW", .str ""⟩)) := by
  refine ⟨?_, ?_, ?_⟩
  · intro c meta obj h
    simp only [normalizeHotel]
    rw [if_pos h]
  · intro currency a0 rest q0 hmem
    have hle0 := foldMinBy_le wval rest a0 (some q0) hmem
    cases hsel : foldMinBy wval a0 rest with
    | none =>
        rw [hsel] at hle0
        exact absurd hle0 (by simp [wval])
    | some m =>
        refine ⟨m, ?_, ?_, ?_⟩
        · have hstep : normalizeHotel currency []
              (.dict [("roomTypes", .list ((a0 :: rest).map mkRoom))]) =
              (match pyMinGo get_offer_amount (mkRoom a0) (rest.map mkRoom) with
               | .error e => .error e
               | .ok best_room =>
                   match pyIndex0 (pyOr (best_room.get "rates") (.list [.dict []])) with
                   | .error e => .error e
                   | .ok first_rate =>
                       match (pyOr (best_room.get "offerRetailRate") (.dict [])).get
                           "amount" with
                       | .pnone => .ok none
                       | tp =>
                           match pyFloat tp with
                           | .error e => .error e
                           | .ok v => .ok (some ⟨0, .str "", .str "", .pnone, .str "",
                               v,
                               (pyOr (best_room.get "offerRetailRate") (.dict [])).getD
                                 "currency" (.str currency),
                               (pyOr (first_rate.get "cancellationPolicies")
                                 (.dict [])).getD "refundableTag" (.str "")⟩)) := rfl
          rw [hstep, pyMinGo_mkRoom, hsel]
          rfl
        · have hmm := foldMinBy_mem wval rest a0
          rwa [hsel] at hmm
        · intro q hq
          have hq1 := foldMinBy_le wval rest a0 (some q) hq
          rw [hsel] at hq1
          simpa [wval, WithTop.coe_le_coe] using hq1
  · rfl

/-- Witness for C2: rooms priced 500, missing, 300 — the normalizer returns a
row priced at a minimal numeric amount. -/
theorem C2_normalizer_amended_witness :
    ∃ m : ℚ,
      normalizeHotel "EUR" []
          (.dict [("roomTypes",
            .list (((some 500 : Option ℚ) :: [none, some 300]).map mkRoom))]) =
        .ok (some ⟨0, .str "", .str "", .pnone, .str "",
          (m : PyFloat), .str "EUR", .str ""⟩) ∧
      some m ∈ (some 500 : Option ℚ) :: [none, some 300] ∧
      (∀ q : ℚ, some q ∈ (some 500 : Option ℚ) :: [none, some 300] → m ≤ q) :=
  C2_normalizer_amended.2.1 "EUR" (some 500) [none, some 300] 500
    (List.mem_cons_self _ _)

/-- `calendar.monthrange(year, month)[1]`: day count of a Gregorian month. -/
def isLeapYear (y : ℕ) : Bool := (y % 4 == 0 && y % 100 != 0) || y % 400 == 0

/-- Day count of the month, as `calendar.monthrange(year, month)[1]`. -/
def daysInMonth (y m : ℕ) : ℕ :=
  if m = 2 then (if isLeapYear y then 29 else 28)
  else if m = 4 ∨ m = 6 ∨ m = 9 ∨ m = 11 then 30 else 31

/-- The running-best update `if best is None or option.price < best.price`. -/
def bestOpt {α β : Type} [LinearOrder β] (key : α → β) (best : Option α) (x : α) : Option α :=
  match best with
  | none => some x
  | some b => if key x < key b then some x else some b

/-- One iteration of the month-scan day loop: query the day, keep the running
best on no result, else apply the running-best update. -/
def dayStep {α β : Type} [LinearOrder β] (key : α → β) (g : ℕ → Option α)
    (best : Option α) (d : ℕ) : Option α :=
  match g d with
  | none => best
  | some x => bestOpt key best x

/-- Embeds `find_cheapest_flight_in_month`, src/Hotel_flight.py lines 127-161.
The per-day call to `search_flights_for_date` — whose arguments beyond the
day (route, trip type, the return date `depart + stay_nights`) are fixed for
the whole scan — is abstracted as the oracle `dayOption` from the day number
to that call's result.  Days are visited in order `1..days_in_month`; days
with no result are skipped; the best is replaced only on strict `<`.  Only
the running minimum is returned. -/
def find_cheapest_flight_in_month (year month : ℕ)
    (dayOption : ℕ → Option FlightOption) : Option FlightOption :=
  (List.range (daysInMonth year month)).foldl
    (dayStep (fun f => f.price_value) (fun d => dayOption (d + 1))) none

/-- The per-day summary dict built by `get_min_price_for_date_via_helper`
(src/app.py lines 255-262).  Its `price` is `best.total_price`, a float —
never Python `None`, so the guard `result["price"] is not None` of line 297
is vacuously true and does not appear in the embedding. -/
structure DayHotelResult where
  checkin : PyDate
  checkout : PyDate
  price : PyFloatB
  currency : PyVal
  hotelName : PyVal
  hotelId : PyVal

/-- The `daily_results` list built by the day loop of
`find_cheapest_hotel_in_month` (src/app.py lines 280-298): one entry per day
`1..last_day` in order, skipping days whose helper call raised or returned
`None`.  The helper call is abstracted as the oracle `dayResult`. -/
def hotelDailyList (year month : ℕ)
    (dayResult : ℕ → Except Unit (Option DayHotelResult)) : List DayHotelResult :=
  (List.range (daysInMonth year month)).filterMap
    (fun d =>
      match dayResult (d + 1) with
      | .error _ => none
      | .ok none => none
      | .ok (some r) => some r)

/-- Embeds `find_cheapest_hotel_in_month`, src/app.py lines 265-304: build
the daily list, return `(None, [])` when it is empty, else
`(min(daily_results, key=price), daily_results)`. -/
def find_cheapest_hotel_in_month (year month : ℕ)
    (dayResult : ℕ → Except Unit (Option DayHotelResult)) :
    Option DayHotelResult × List DayHotelResult :=
  match hotelDailyList year month dayResult with
  | [] => (none, [])
  | x :: xs => (some (foldMinBy (fun r => r.price) x xs), x :: xs)

/-- The day-indexed successes of a month-long flight scan, in day order. -/
def flightDailyList (year month : ℕ)
    (dayOption : ℕ → Option FlightOption) : List FlightOption :=
  (List.range (daysInMonth year month)).filterMap (fun d => dayOption (d + 1))

theorem foldl_day_eq {α β : Type} [LinearOrder β] (key : α → β) (g : ℕ → Option α) :
    ∀ (l : List ℕ) (acc : Option α),
      l.foldl (dayStep key g) acc = (l.filterMap g).foldl (bestOpt key) acc
  | [], _ => rfl
  | d :: ds, acc => by
      rw [List.foldl_cons, List.filterMap_cons]
      cases hg : g d with
      | none =>
          have hstep : dayStep key g acc d = acc := by rw [dayStep, hg]
          rw [hstep]
          exact foldl_day_eq key g ds acc
      | some x =>
          have hstep : dayStep key g acc d = bestOpt key acc x := by rw [dayStep, hg]
          rw [hstep]
          exact foldl_day_eq key g ds (bestOpt key acc x)

theorem foldl_bestOpt_some {α β : Type} [LinearOrder β] (key : α → β) :
    ∀ (xs : List α) (x : α),
      xs.foldl (bestOpt key) (some x) = some (foldMinBy key x xs)
  | [], _ => rfl
  | y :: ys, x => by
      by_cases h : key y < key x
      · have hb : bestOpt key (some x) y = some y := by simp [bestOpt, h]
        rw [List.foldl_cons, hb, foldMinBy_cons, if_pos h]
        exact foldl_bestOpt_some key ys y
      · have hb : bestOpt key (some x) y = some x := by simp [bestOpt, h]
        rw [List.foldl_cons, hb, foldMinBy_cons, if_neg h]
        exact foldl_bestOpt_some key ys x

theorem foldl_bestOpt_none {α β : Type} [LinearOrder β] (key : α → β) (x : α) (xs : List α) :
    (x :: xs).foldl (bestOpt key) none = some (foldMinBy key x xs) := by
  rw [List.foldl_cons]
  exact foldl_bestOpt_some key xs x

/-- First-minimum of a list, `none` when empty. -/
def firstMinOpt {α β : Type} [LinearOrder β] (key : α → β) : List α → Option α
  | [] => none
  | x :: xs => some (foldMinBy key x xs)

/-- The flight month scan equals the first-minimum of the day-ordered success
list. -/
theorem flight_scan_eq (year month : ℕ) (o : ℕ → Option FlightOption) :
    find_cheapest_flight_in_month year month o =
      firstMinOpt (fun f => f.price_value) (flightDailyList year month o) := by
  have h := foldl_day_eq (fun f => f.price_value) (fun d => o (d + 1))
    (List.range (daysInMonth year month)) none
  cases hfm : flightDailyList year month o with
  | nil =>
      have h2 : (List.range (daysInMonth year month)).filterMap
          (fun d => o (d + 1)) = [] := hfm
      rw [find_cheapest_flight_in_month]
      rw [h2] at h
      exact h
  | cons x xs =>
      have h2 : (List.range (daysInMonth year month)).filterMap
          (fun d => o (d + 1)) = x :: xs := hfm
      rw [find_cheapest_flight_in_month]
      rw [h2] at h
      exact h.trans (foldl_bestOpt_none _ x xs)

theorem mem_flightDailyList {year month : ℕ} {o : ℕ → Option FlightOption}
    {f : FlightOption} :
    f ∈ flightDailyList year month o ↔
      ∃ d, 1 ≤ d ∧ d ≤ daysInMonth year month ∧ o d = some f := by
  simp only [flightDailyList, List.mem_filterMap, List.mem_range]
  constructor
  · rintro ⟨d, hd, hsome⟩
    exact ⟨d + 1, by omega, by omega, hsome⟩
  · rintro ⟨d, h1, h2, hsome⟩
    refine ⟨d - 1, by omega, ?_⟩
    have hd : d - 1 + 1 = d := by omega
    rw [hd]
    exact hsome

theorem length_filterMap_eq_countP {α β : Type} (f : α → Option β) :
    ∀ l : List α, (l.filterMap f).length = l.countP (fun a => (f a).isSome)
  | [] => rfl
  | a :: l => by
      rw [List.filterMap_cons, List.countP_cons]
      cases hf : f a with
      | none => simp [hf, length_filterMap_eq_countP f l]
      | some b => simp [hf, length_filterMap_eq_countP f l]

theorem countP_congr_mem {α : Type} (p q : α → Bool) :
    ∀ l : List α, (∀ a ∈ l, p a = q a) → l.countP p = l.countP q
  | [], _ => rfl
  | a :: l, h => by
      rw [List.countP_cons, List.countP_cons,
        countP_congr_mem p q l (fun b hb => h b (List.mem_cons_of_mem a hb)),
        h a (List.mem_cons_self a l)]

/-- C4 counterexample: the flight-variant month scan does not return the full
list of per-day results — two scans whose per-day success lists differ (one
success on day 1 versus successes on days 1 and 2) produce identical return
values, so the caller cannot receive the full list from it. -/
theorem C4_counterexample :
    (find_cheapest_flight_in_month 2026 2
        (fun d => if d = 1
          then some ⟨⟨2026, 2, 1⟩, none, ((10 : ℚ) : PyFloat), "10", "A"⟩
          else none) =
      find_cheapest_flight_in_month 2026 2
        (fun d => if d = 1
          then some ⟨⟨2026, 2, 1⟩, none, ((10 : ℚ) : PyFloat), "10", "A"⟩
          else if d = 2
          then some ⟨⟨2026, 2, 2⟩, none, ((20 : ℚ) : PyFloat), "20", "B"⟩
          else none)) ∧
    (flightDailyList 2026 2
        (fun d => if d = 1
          then some ⟨⟨2026, 2, 1⟩, none, ((10 : ℚ) : PyFloat), "10", "A"⟩
          else none)).length ≠
      (flightDailyList 2026 2
        (fun d => if d = 1
          then some ⟨⟨2026, 2, 1⟩, none, ((10 : ℚ) : PyFloat), "10", "A"⟩
          else if d = 2
          then some ⟨⟨2026, 2, 2⟩, none, ((20 : ℚ) : PyFloat), "20", "B"⟩
          else none)).length := by
  refine ⟨rfl, by decide⟩

/-- C4 amended: the month scanners invoke the per-day search once per
calendar day (day 1 upward) and silently skip days that error or return no
result.  The hotel variant returns both the running minimum and the full
day-ordered list of per-day results; the flight variant returns only the
running minimum.  Scanning the 28-day February 2026 with one forced failure
on day 5 yields 27 daily results. -/
theorem C4_month_scanner_amended :
    (∀ (year month : ℕ) (oracle : ℕ → Except Unit (Option DayHotelResult)),
      (find_cheapest_hotel_in_month year month oracle).2 =
        hotelDailyList year month oracle) ∧
    (∀ (year month : ℕ) (oracle : ℕ → Except Unit (Option DayHotelResult))
        (r : DayHotelResult),
      (find_cheapest_hotel_in_month year month oracle).1 = some r →
      r ∈ hotelDailyList year month oracle ∧
      ∀ s ∈ hotelDailyList year month oracle, r.price ≤ s.price) ∧
    (∀ (year month : ℕ) (oracle : ℕ → Except Unit (Option DayHotelResult)),
      (find_cheapest_hotel_in_month year month oracle).1 = none ↔
        hotelDailyList year month oracle = []) ∧
    (∀ (year month : ℕ) (o : ℕ → Option FlightOption) (f : FlightOption),
      find_cheapest_flight_in_month year month o = some f →
      (∃ d, 1 ≤ d ∧ d ≤ daysInMonth year month ∧ o d = some f) ∧
      ∀ d g, 1 ≤ d → d ≤ daysInMonth year month → o d = some g →
        f.price_value ≤ g.price_value) ∧
    (∀ oracle : ℕ → Except Unit (Option DayHotelResult),
      oracle 5 = .error () →
      (∀ d, 1 ≤ d → d ≤ 28 → d ≠ 5 → ∃ r, oracle d = .ok (some r)) →
      (find_cheapest_hotel_in_month 2026 2 oracle).2.length = 27) := by
  have hsnd : ∀ (year month : ℕ) (oracle : ℕ → Except Unit (Option DayHotelResult)),
      (find_cheapest_hotel_in_month year month oracle).2 =
        hotelDailyList year month oracle := by
    intro y m oracle
    rw [find_cheapest_hotel_in_month]
    cases hl : hotelDailyList y m oracle with
    | nil => rfl
    | cons x xs => rfl
  refine ⟨hsnd, ?_, ?_, ?_, ?_⟩
  · intro y m oracle r h
    rw [find_cheapest_hotel_in_month] at h
    cases hl : hotelDailyList y m oracle with
    | nil =>
        rw [hl] at h
        exact absurd h (by simp)
    | cons x xs =>
        rw [hl] at h
        have h2 : some (foldMinBy (fun s => s.price) x xs) = some r := h
        have h3 : foldMinBy (fun s => s.price) x xs = r := by
          injection h2
        constructor
        · rw [← h3]
          exact foldMinBy_mem (fun s => s.price) xs x
        · intro s hs
          rw [← h3]
          exact foldMinBy_le (fun s => s.price) xs x s hs
  · intro y m oracle
    rw [find_cheapest_hotel_in_month]
    cases hl : hotelDailyList y m oracle with
    | nil => simp
    | cons x xs => simp
  · intro y m o f hf
    rw [flight_scan_eq] at hf
    cases hfm : flightDailyList y m o with
    | nil =>
        rw [hfm] at hf
        exact absurd hf (by simp [firstMinOpt])
    | cons x xs =>
        rw [hfm] at hf
        have h2 : some (foldMinBy (fun g => g.price_value) x xs) = some f := hf
        have h3 : foldMinBy (fun g => g.price_value) x xs = f := by
          injection h2
        constructor
        · rw [← mem_flightDailyList, hfm, ← h3]
          exact foldMinBy_mem (fun g => g.price_value) xs x
        · intro d g h1 h2d hsome
          have hg : g ∈ flightDailyList y m o :=
            mem_flightDailyList.2 ⟨d, h1, h2d, hsome⟩
          rw [hfm] at hg
          rw [← h3]
          exact foldMinBy_le (fun g => g.price_value) xs x g hg
  · intro oracle h5 hok
    rw [hsnd 2026 2 oracle, hotelDailyList]
    rw [length_filterMap_eq_countP]
    have hdays : daysInMonth 2026 2 = 28 := rfl
    rw [hdays]
    rw [countP_congr_mem _ (fun d => decide (¬ d = 4)) _ ?_]
    · decide
    · intro d hd
      have hdlt : d < 28 := List.mem_range.1 hd
      by_cases h4 : d = 4
      · subst h4
        rw [h5]
        simp
      · obtain ⟨r, hr⟩ := hok (d + 1) (by omega) (by omega) (by omega)
        rw [hr]
        simp [h4]

/-- Witness for C4: a concrete February-2026 oracle failing only on day 5
yields exactly 27 daily results. -/
theorem C4_month_scanner_amended_witness :
    (find_cheapest_hotel_in_month 2026 2
        (fun d => if d = 5 then .error () else .ok (some ⟨⟨2026, 2, d⟩,
          ⟨2026, 2, d⟩, ((100 : ℚ) : PyFloat), .str "KRW", .str "H",
          .str "id"⟩))).2.length = 27 :=
  C4_month_scanner_amended.2.2.2.2 _ (by simp)
    (fun d _ _ h3 => ⟨⟨⟨2026, 2, d⟩, ⟨2026, 2, d⟩, ((100 : ℚ) : PyFloat),
      .str "KRW", .str "H", .str "id"⟩, by rw [if_neg h3]⟩)

/-- C5: both month scans break ties on the minimum price by keeping the first
day encountered (day 1 upward): the returned best splits the day-ordered
success list so that every earlier success is strictly more expensive, and no
success anywhere is cheaper. -/
theorem C5_first_day_tie_break :
    (∀ (year month : ℕ) (o : ℕ → Option FlightOption) (f : FlightOption),
      find_cheapest_flight_in_month year month o = some f →
      ∃ l1 l2, flightDailyList year month o = l1 ++ f :: l2 ∧
        (∀ g ∈ l1, f.price_value < g.price_value) ∧
        (∀ g ∈ flightDailyList year month o, f.price_value ≤ g.price_value)) ∧
    (∀ (year month : ℕ) (oracle : ℕ → Except Unit (Option DayHotelResult))
        (r : DayHotelResult),
      (find_cheapest_hotel_in_month year month oracle).1 = some r →
      ∃ l1 l2, hotelDailyList year month oracle = l1 ++ r :: l2 ∧
        (∀ s ∈ l1, r.price < s.price) ∧
        (∀ s ∈ hotelDailyList year month oracle, r.price ≤ s.price)) := by
  constructor
  · intro y m o f hf
    rw [flight_scan_eq] at hf
    cases hfm : flightDailyList y m o with
    | nil =>
        rw [hfm] at hf
        exact absurd hf (by simp [firstMinOpt])
    | cons x xs =>
        rw [hfm] at hf
        have h2 : some (foldMinBy (fun g => g.price_value) x xs) = some f := hf
        have h3 : foldMinBy (fun g => g.price_value) x xs = f := by
          injection h2
        obtain ⟨l1, l2, hdec, hstrict, hle⟩ :=
          foldMinBy_decomp (fun g => g.price_value) xs x
        rw [h3] at hdec hstrict hle
        exact ⟨l1, l2, hdec, hstrict, hle⟩
  · intro y m oracle r hr
    rw [find_cheapest_hotel_in_month] at hr
    cases hl : hotelDailyList y m oracle with
    | nil =>
        rw [hl] at hr
        exact absurd hr (by simp)
    | cons x xs =>
        rw [hl] at hr
        have h2 : some (foldMinBy (fun s => s.price) x xs) = some r := hr
        have h3 : foldMinBy (fun s => s.price) x xs = r := by
          injection h2
        obtain ⟨l1, l2, hdec, hstrict, hle⟩ :=
          foldMinBy_decomp (fun s => s.price) xs x
        rw [h3] at hdec hstrict hle
        exact ⟨l1, l2, hdec, hstrict, hle⟩

/-- Witness for C5: the flight tie-break decomposition at a concrete one-day
oracle. -/
theorem C5_first_day_tie_break_witness :
    ∃ l1 l2, flightDailyList 2026 2
        (fun d => if d = 1
          then some ⟨⟨2026, 2, 1⟩, none, ((10 : ℚ) : PyFloat), "10", "A"⟩
          else none) =
        l1 ++ (⟨⟨2026, 2, 1⟩, none, ((10 : ℚ) : PyFloat), "10", "A"⟩ :
          FlightOption) :: l2 ∧
      (∀ g ∈ l1, ((10 : ℚ) : PyFloat) < g.price_value) ∧
      (∀ g ∈ flightDailyList 2026 2
        (fun d => if d = 1
          then some ⟨⟨2026, 2, 1⟩, none, ((10 : ℚ) : PyFloat), "10", "A"⟩
          else none), ((10 : ℚ) : PyFloat) ≤ g.price_value) :=
  C5_first_day_tie_break.1 2026 2
    (fun d => if d = 1
      then some ⟨⟨2026, 2, 1⟩, none, ((10 : ℚ) : PyFloat), "10", "A"⟩
      else none)
    ⟨⟨2026, 2, 1⟩, none, ((10 : ℚ) : PyFloat), "10", "A"⟩ rfl

/-- The room-type list a record's normalization iterates over: the value of
`hotel_obj.get("roomTypes") or []` when it is a list, else empty. -/
def roomsOf (obj : PyVal) : List PyVal :=
  match pyOr (obj.get "roomTypes") (.list []) with
  | .list l => l
  | _ => []

/-- The raw `offerRetailRate.amount` value of a room-type record (`None` when
missing). -/
def amountOf (rt : PyVal) : PyVal :=
  (pyOr (rt.get "offerRetailRate") (.dict [])).get "amount"

/-- When the Python `min` scan succeeds it returns one of the scanned
elements. -/
theorem pyMinGo_mem {α : Type} (key : α → AKey) :
    ∀ (l : List α) (best r : α), pyMinGo key best l = .ok r → r ∈ best :: l
  | [], best, r, h => by
      have hb : best = r := Except.ok.inj h
      rw [hb]
      exact List.mem_cons_self _ _
  | y :: ys, best, r, h => by
      rw [pyMinGo] at h
      split at h
      · exact Except.noConfusion h
      · rename_i b hb
        have hmem := pyMinGo_mem key ys (if b then y else best) r h
        rcases List.mem_cons.1 hmem with h1 | h1
        · cases b with
          | true =>
              rw [h1]
              exact List.mem_cons_of_mem _ (List.mem_cons_self _ _)
          | false =>
              rw [h1]
              exact List.mem_cons_self _ _
        · exact List.mem_cons_of_mem _ (List.mem_cons_of_mem _ h1)

theorem pyMin_mem {α : Type} (key : α → AKey) (l : List α) (r : α)
    (h : pyMin key l = .ok r) : r ∈ l := by
  cases l with
  | nil => exact Except.noConfusion h
  | cons x xs => exact pyMinGo_mem key xs x r h

/-- A hotel row built from a record whose room-type amounts are all JSON
numbers or missing has a finite `total_price` (string amounts such as
`"inf"`/`"-inf"` are exactly what this hypothesis excludes). -/
theorem normalizeHotel_numeric_finite (c : String) (meta : List (String × PyVal))
    (obj : PyVal) (row : HotelOption)
    (hnum : ∀ rt ∈ roomsOf obj,
      (∃ q : ℚ, amountOf rt = PyVal.num q) ∨ amountOf rt = PyVal.pnone)
    (h : normalizeHotel c meta obj = .ok (some row)) :
    ∃ q : ℚ, row.total_price = ((q : PyFloat) : PyFloatB) := by
  rw [normalizeHotel] at h
  dsimp only [] at h
  split at h
  · exact Option.noConfusion (Except.ok.inj h)
  · split at h
    · rename_i rts hrts
      have hrooms : roomsOf obj = rts := by rw [roomsOf, hrts]
      split at h
      · exact Except.noConfusion h
      · rename_i best_room hmin
        have hbm : best_room ∈ roomsOf obj := by
          rw [hrooms]
          exact pyMin_mem get_offer_amount rts best_room hmin
        split at h
        · exact Except.noConfusion h
        · rcases hnum best_room hbm with ⟨q, hq⟩ | hq
          · have hq1 : (pyOr (best_room.get "offerRetailRate")
                (PyVal.dict [])).get "amount" = PyVal.num q := hq
            rw [hq1] at h
            dsimp only [pyFloat] at h
            have h4 := Option.some.inj (Except.ok.inj h)
            refine ⟨q, ?_⟩
            rw [← h4]
          · have hq1 : (pyOr (best_room.get "offerRetailRate")
                (PyVal.dict [])).get "amount" = PyVal.pnone := hq
            rw [hq1] at h
            exact Option.noConfusion (Except.ok.inj h)
    · exact Except.noConfusion h

theorem normalizeHotels_numeric_finite (c : String)
    (meta : List (String × PyVal)) :
    ∀ (data : List PyVal) (rows0 : List HotelOption),
      normalizeHotels c meta data = .ok rows0 →
      (∀ obj ∈ data, ∀ rt ∈ roomsOf obj,
        (∃ q : ℚ, amountOf rt = PyVal.num q) ∨ amountOf rt = PyVal.pnone) →
      ∀ r ∈ rows0, ∃ q : ℚ, r.total_price = ((q : PyFloat) : PyFloatB)
  | [], rows0, h, _, r, hr => by
      have h0 : ([] : List HotelOption) = rows0 := Except.ok.inj h
      rw [← h0] at hr
      exact absurd hr (List.not_mem_nil r)
  | x :: xs, rows0, h, hnum, r, hr => by
      rw [normalizeHotels] at h
      split at h
      · exact Except.noConfusion h
      · exact normalizeHotels_numeric_finite c meta xs rows0 h
          (fun obj hobj => hnum obj (List.mem_cons_of_mem x hobj)) r hr
      · rename_i r0 heq
        split at h
        · exact Except.noConfusion h
        · rename_i rest hrest
          have h0 : r0 :: rest = rows0 := Except.ok.inj h
          rw [← h0] at hr
          rcases List.mem_cons.1 hr with rfl | hr1
          · exact normalizeHotel_numeric_finite c meta x r
              (hnum x (List.mem_cons_self x xs)) heq
          · exact normalizeHotels_numeric_finite c meta xs rest hrest
              (fun obj hobj => hnum obj (List.mem_cons_of_mem x hobj)) r hr1

/-- Sorting and ranking does not change the multiset of prices. -/
theorem mem_rankHotels_price {h : HotelOption} {l : List HotelOption}
    (hm : h ∈ rankHotels l) :
    h.total_price ∈ l.map (fun r => r.total_price) := by
  have h1 : h.total_price ∈ (rankHotels l).map (fun r => r.total_price) :=
    List.mem_map_of_mem _ hm
  rw [rankHotels, map_price_assignRanksFrom] at h1
  exact ((List.perm_insertionSort priceLe l).map (fun r => r.total_price)).mem_iff.1 h1

/-- C6 counterexample, both sides of the claim: when every returned itinerary
has an unparseable price, the flight selector still returns a `FlightOption`
carrying the `inf` sentinel in `price_value`; and a hotel record whose room
amount is the string `"-inf"` passes `float(...)` and is returned with a
negative-infinite `total_price` (`⊥`).  Either refutes the claim that no
returned record holds an infinite or negative-infinite price. -/
theorem C6_counterexample :
    (search_flights_for_date
        (fun _ => Except.ok [⟨PricePy.str "abc", "X", "Y"⟩])
        ⟨2026, 1, 1⟩ "ICN" "CTS" "one-way" none 1 "economy").1.map
      (fun f => f.price_value) = some ⊤ ∧
    normalizeHotel "KRW" []
        (.dict [("roomTypes", .list [.dict [("offerRetailRate",
          .dict [("amount", .str "-inf")])]])]) =
      .ok (some ⟨0, .str "", .str "", .pnone, .str "",
        (⊥ : PyFloatB), .str "KRW", .str ""⟩) := by
  refine ⟨rfl, rfl⟩

/-- C6 amended: "no valid offer" is still represented by omission (hotels) or
`None` (flights).  A returned `FlightOption` never carries a negative
infinity (its float domain has none), and its `price_value` is the `inf`
sentinel exactly when every itinerary the collaborator returned has an
unparseable price.  A `HotelOption` whose record's room amounts are JSON
numbers or missing has a finite `total_price` — both per record and through
the whole sort-and-rank pipeline — but an `inf`-denoting string amount is
returned inside the row, so a returned `HotelOption` can carry an infinite,
even negative-infinite, `total_price` (see the counterexample). -/
theorem C6_no_sentinel_amended :
    (∀ (c : String) (meta : List (String × PyVal)) (obj : PyVal)
        (row : HotelOption),
      (∀ rt ∈ roomsOf obj,
        (∃ q : ℚ, amountOf rt = PyVal.num q) ∨ amountOf rt = PyVal.pnone) →
      normalizeHotel c meta obj = .ok (some row) →
      ∃ q : ℚ, row.total_price = ((q : PyFloat) : PyFloatB)) ∧
    (∀ (c : String) (data : List PyVal) (meta : List (String × PyVal))
        (rows : List HotelOption),
      search_hotels_rows c data meta = .ok rows →
      (∀ obj ∈ data, ∀ rt ∈ roomsOf obj,
        (∃ q : ℚ, amountOf rt = PyVal.num q) ∨ amountOf rt = PyVal.pnone) →
      ∀ h ∈ rows, ∃ q : ℚ, h.total_price = ((q : PyFloat) : PyFloatB)) ∧
    (∀ (oracle : GetFlightsCall → Except String (List RawFlight))
        (depart : PyDate) (origin dest trip : String) (ret : Option PyDate)
        (adults : ℕ) (seat : String) (fls : List RawFlight) (f : FlightOption),
      oracle (mkGetFlightsCall depart origin dest trip ret adults seat) =
        .ok fls →
      (search_flights_for_date oracle depart origin dest trip ret adults
        seat).1 = some f →
      (f.price_value = ⊤ ↔ ∀ fl ∈ fls, parse_price_to_float fl.price = ⊤)) := by
  refine ⟨fun c meta obj row hnum h =>
    normalizeHotel_numeric_finite c meta obj row hnum h, ?_, ?_⟩
  · intro c data meta rows h hnum hrow hmem
    rw [search_hotels_rows] at h
    split at h
    · exact Except.noConfusion h
    · rename_i rows0 h0
      have h1 : rankHotels rows0 = rows := Except.ok.inj h
      rw [← h1] at hmem
      have h2 := mem_rankHotels_price hmem
      rcases List.mem_map.1 h2 with ⟨r0, hr0, hpr⟩
      obtain ⟨q, hq⟩ :=
        normalizeHotels_numeric_finite c meta data rows0 h0 hnum r0 hr0
      refine ⟨q, ?_⟩
      rw [← hpr, hq]
  · intro oracle depart origin dest trip ret adults seat fls f hok hf
    rw [search_flights_for_date] at hf
    dsimp only [] at hf
    rw [hok] at hf
    cases fls with
    | nil => exact absurd hf (by simp)
    | cons x xs =>
        have hfl := Option.some.inj hf
        subst hfl
        constructor
        · intro htop fl hm
          have htop2 : parse_price_to_float
              ((foldMinBy (fun g => parse_price_to_float g.price) x xs).price) =
                ⊤ := htop
          have hle2 : (⊤ : PyFloat) ≤ parse_price_to_float fl.price := by
            rw [← htop2]
            exact foldMinBy_le (fun g => parse_price_to_float g.price) xs x fl hm
          exact top_le_iff.1 hle2
        · intro hall
          exact hall _ (foldMinBy_mem (fun g => parse_price_to_float g.price) xs x)

/-- Witness for C6: a collaborator returning one itinerary with a numeric
price gives a finite `price_value`, matching the iff at a concrete input. -/
theorem C6_no_sentinel_amended_witness :
    ((⟨⟨2026, 3, 1⟩, none, ((500 : ℚ) : PyFloat), toString (500 : ℚ), "X"⟩ :
        FlightOption).price_value = ⊤ ↔
      ∀ fl ∈ [(⟨PricePy.num 500, "X", "Y"⟩ : RawFlight)],
        parse_price_to_float fl.price = ⊤) :=
  C6_no_sentinel_amended.2.2 (fun _ => Except.ok [⟨PricePy.num 500, "X", "Y"⟩])
    ⟨2026, 3, 1⟩ "ICN" "KIX" "one-way" none 1 "economy"
    [⟨PricePy.num 500, "X", "Y"⟩]
    ⟨⟨2026, 3, 1⟩, none, ((500 : ℚ) : PyFloat), toString (500 : ℚ), "X"⟩
    rfl rfl
